import Mathlib

/-!
Verification development for the `cron` job/task scheduling engine of the
go-sdk repository.

The repository ships the package's test file (`src/unnamed/part_000`, package
`cron`); the implementation of the `JobManager`, `Schedule` variants and the
execution tracker is not among the provided sources, so the operational model
below is built from the specification (spec.md §3–§5), with the test file
supplying the concrete API surface (`New`, `RunTask`, `CancelTask`,
`LoadJob`, `DisableJob`, `IsDisabled`, `WithTracer`, `WithLogger`, schedule
helper `runAt`, …).  Time is modelled as a natural number of milliseconds;
concurrency is modelled by an explicit small-step interleaving: admission of
an execution (`RunTask`/`RunJob`/`tick`) and its later completion
(`finishNext`) are separate steps, so states with in-flight executions are
first-class.
-/

namespace Cron

/-- Modelled from the spec: the observable outcome of one invocation of an
action — normal return, an error return, or an abnormal termination (panic)
inside the action. -/
inductive Outcome where
  | ok : Outcome
  | errored : String → Outcome
  | panicked : String → Outcome
deriving DecidableEq, Repr

/-- Modelled from the spec: a first-order description of an action's
behaviour.  `always o` ignores the cancellation signal and produces `o`;
`cooperative oc onorm` observes the cancellation signal (the context's Done
channel) and produces `oc` when it has fired, `onorm` otherwise — this is the
shape of the test's `taskToCancel` action, which selects on `ctx.Done()`. -/
inductive ActionSpec where
  | always : Outcome → ActionSpec
  | cooperative : Outcome → Outcome → ActionSpec
deriving DecidableEq, Repr

/-- The outcome an action produces, given whether the cancellation signal had
fired when it ran. -/
def ActionSpec.result : ActionSpec → Bool → Outcome
  | .always o, _ => o
  | .cooperative oc _, true => oc
  | .cooperative _ onorm, false => onorm

/-- Modelled from the spec: the worker boundary converts the raw outcome into
an error result — a caught panic is synthesized into an error carrying the
panic message, so it never propagates further. -/
def Outcome.toError : Outcome → Option String
  | .ok => none
  | .errored m => some m
  | .panicked m => some m

/-- Modelled from the spec (§3 Schedule variants), except `runAt`, which is
the test file's helper schedule (src/unnamed/part_000 lines 24–29): its
`GetNextRunTime` ignores the last-run argument and always returns the same
fixed timestamp. -/
inductive Schedule where
  | Immediately : Schedule
  | Every : Nat → Schedule
  | OnDemand : Schedule
  | At : Nat → Schedule
  | runAt : Nat → Schedule
deriving DecidableEq, Repr

/-- Modelled from the spec (§4.1): next run time from the last run time (or
none before the first run); `now` is the ambient clock the Go code reads
internally.  `Immediately`: now on first call, then never again.  `Every i`:
last run + i, or now if never run.  `OnDemand`: never due.  `At t`: fires
once at `t`, never again.  `runAt t` is the test helper: always `t`,
regardless of the last-run argument. -/
def Schedule.GetNextRunTime : Schedule → Option Nat → Nat → Option Nat
  | .Immediately, none, now => some now
  | .Immediately, some _, _ => none
  | .Every _, none, now => some now
  | .Every i, some last, _ => some (last + i)
  | .OnDemand, _, _ => none
  | .At t, none, _ => some t
  | .At _, some _, _ => none
  | .runAt t, _, _ => some t

/-- Modelled from the spec (§3 Task): name, concurrency class (serial vs
parallel, parallel the default), action, optional timeout, and whether a
cancellation callback is declared. -/
structure Task where
  name : String
  serial : Bool
  action : ActionSpec
  timeout : Option Nat
  hasOnCancellation : Bool
deriving DecidableEq, Repr

/-- Constructor `NewTask` from the test file: an unnamed parallel task (the Go code
auto-generates a unique name; the model uses a fixed placeholder). -/
def NewTask (a : ActionSpec) : Task :=
  ⟨"task", false, a, none, false⟩

/-- Constructor `NewTaskWithName` from the test file: a named parallel-class task. -/
def NewTaskWithName (n : String) (a : ActionSpec) : Task :=
  ⟨n, false, a, none, false⟩

/-- Constructor `NewSerialTaskWithName` from the test file: a named serial-class task. -/
def NewSerialTaskWithName (n : String) (a : ActionSpec) : Task :=
  ⟨n, true, a, none, false⟩

/-- Modelled from the spec (§3 Job): name, schedule, action, optional
timeout, optional cancellation callback, optional dynamic enabled predicate.
`enabledProvider = some b` means the job declares an `Enabled()` predicate
whose current value is `b`; `none` means no predicate declared. -/
structure Job where
  name : String
  schedule : Schedule
  action : ActionSpec
  timeout : Option Nat
  hasOnCancellation : Bool
  enabledProvider : Option Bool
deriving DecidableEq, Repr

/-- Constructor `NewJob(name).WithAction(a)` from the test file: an on-demand job. -/
def NewJob (n : String) (a : ActionSpec) : Job :=
  ⟨n, .OnDemand, a, none, false, none⟩

/-- Modelled from the spec (§3 Execution Record): the tracker's bookkeeping
entry for one in-flight run — name, class, the action being run, whether a
cancellation callback is declared, whether it was launched for a registered
job, start time, whether the cancellation signal (context) has fired, and how
many times the cancellation callback has been invoked. -/
structure Execution where
  name : String
  serial : Bool
  action : ActionSpec
  hasOnCancellation : Bool
  fromJob : Bool
  startTime : Nat
  ctxCancelled : Bool
  cancelCallbackCount : Nat
deriving DecidableEq, Repr

/-- Modelled from the spec (§6 Logger capability): a structured error event
carrying the failing job/task name and the error. -/
structure ErrorEvent where
  jobName : String
  err : String
deriving DecidableEq, Repr

/-- Modelled from the spec (§6 Tracer capability): `Start` fires before the
action runs with the task identity; `Finish` fires once after it concludes,
with the outcome (`none` = nil error). -/
inductive TraceEvent where
  | start : String → TraceEvent
  | finish : String → Option String → TraceEvent
deriving DecidableEq, Repr

/-- Modelled from the spec (§3 Job registration record): the job plus the
manual disabled flag, last-run timestamp and next-run timestamp. -/
structure JobRecord where
  job : Job
  disabled : Bool
  lastRun : Option Nat
  nextRun : Option Nat
deriving DecidableEq, Repr

/-- Modelled from the spec (§4.4): the Heartbeat Loop state machine. -/
inductive HeartbeatStatus where
  | Stopped : HeartbeatStatus
  | Running : HeartbeatStatus
deriving DecidableEq, Repr

/-- Modelled from the spec (§2, §4.2): the Job Manager façade — job registry,
in-flight execution records, the history of completed executions (name and
error result, in completion order), heartbeat state and interval, and the
optional tracer/logger capabilities with the event streams they received. -/
structure JobManager where
  jobs : List JobRecord
  executions : List Execution
  completed : List (String × Option String)
  status : HeartbeatStatus
  heartbeatInterval : Nat
  hasTracer : Bool
  hasLogger : Bool
  traceEvents : List TraceEvent
  loggerEvents : List ErrorEvent
deriving DecidableEq, Repr

/-- Modelled from the spec (§4.2): the default heartbeat polling interval,
in milliseconds. -/
def DefaultHeartbeatInterval : Nat := 250

/-- Modelled from the test file's comment: the high-precision heartbeat is
"somewhere around 5ms". -/
def DefaultHighPrecisionHeartbeatInterval : Nat := 5

/-- Constructor `New()` from the test file: a fresh manager — empty registry, no
executions, heartbeat stopped, default interval, no capabilities. -/
def New : JobManager :=
  ⟨[], [], [], .Stopped, DefaultHeartbeatInterval, false, false, [], []⟩

/-- Option `WithHighPrecisionHeartbeat` from the test file: select the short
polling interval. -/
def JobManager.WithHighPrecisionHeartbeat (jm : JobManager) : JobManager :=
  { jm with heartbeatInterval := DefaultHighPrecisionHeartbeatInterval }

/-- Accessor `HeartbeatInterval` from the test file. -/
def JobManager.HeartbeatInterval (jm : JobManager) : Nat :=
  jm.heartbeatInterval

/-- Option `WithTracer` from the test file: attach the tracer capability. -/
def JobManager.WithTracer (jm : JobManager) : JobManager :=
  { jm with hasTracer := true }

/-- Option `WithLogger` from the test file: attach the logger capability. -/
def JobManager.WithLogger (jm : JobManager) : JobManager :=
  { jm with hasLogger := true }

/-- Modelled from the spec (§7): the administrative error taxonomy returned
synchronously to callers. -/
inductive CronError where
  | duplicateJob : String → CronError
  | notFound : String → CronError
deriving DecidableEq, Repr

/-- Registry lookup by job name. -/
def lookupJob (jm : JobManager) (name : String) : Option JobRecord :=
  jm.jobs.find? (fun r => r.job.name == name)

/-- Is some execution record with this name in flight? -/
def JobManager.inFlight (jm : JobManager) (name : String) : Bool :=
  jm.executions.any (fun e => e.name == name)

/-- Number of in-flight execution records under a name. -/
def execCount (jm : JobManager) (name : String) : Nat :=
  (jm.executions.filter (fun e => e.name == name)).length

/-- Number of completed executions under a name. -/
def completedCount (jm : JobManager) (name : String) : Nat :=
  (jm.completed.filter (fun c => c.1 == name)).length

/-- Modelled from the spec (§4.2): `LoadJob` registers a job, failing with
`DuplicateJobError` when the name is taken; the registration record starts
with a clear manual flag, no last run, and the schedule's first next-run
time.  `now` is the ambient clock at registration. -/
def JobManager.LoadJob (jm : JobManager) (j : Job) (now : Nat) :
    Except CronError JobManager :=
  match lookupJob jm j.name with
  | some _ => .error (.duplicateJob j.name)
  | none => .ok { jm with
      jobs := jm.jobs ++ [⟨j, false, none, j.schedule.GetNextRunTime none now⟩] }

/-- Modelled from the spec (§3): a registration record is disabled when the
manual flag is set or the job's own enabled predicate currently reports
false. -/
def JobRecord.isDisabledRecord (r : JobRecord) : Bool :=
  r.disabled || (match r.job.enabledProvider with
    | some b => !b
    | none => false)

/-- Modelled from the spec (§4.2): `IsDisabled` is the OR of the manual flag
and the predicate negation; it falls back to `false` for an unregistered
name. -/
def JobManager.IsDisabled (jm : JobManager) (name : String) : Bool :=
  match lookupJob jm name with
  | some r => r.isDisabledRecord
  | none => false

/-- Replace the registration record under `name` by `f` of it. -/
def updateJobRecord (jm : JobManager) (name : String)
    (f : JobRecord → JobRecord) : JobManager :=
  { jm with jobs := jm.jobs.map (fun r => if r.job.name == name then f r else r) }

/-- Modelled from the spec (§4.2): `DisableJob` sets the manual flag; fails
with `NotFoundError` when unregistered. -/
def JobManager.DisableJob (jm : JobManager) (name : String) :
    Except CronError JobManager :=
  match lookupJob jm name with
  | none => .error (.notFound name)
  | some _ => .ok (updateJobRecord jm name (fun r => { r with disabled := true }))

/-- Modelled from the spec (§4.2): `EnableJob` clears only the manual flag;
fails with `NotFoundError` when unregistered. -/
def JobManager.EnableJob (jm : JobManager) (name : String) :
    Except CronError JobManager :=
  match lookupJob jm name with
  | none => .error (.notFound name)
  | some _ => .ok (updateJobRecord jm name (fun r => { r with disabled := false }))

/-- Environment step from the test file (`job.isEnabled = false` in
`TestEnabledProvider`): the job's own enabled predicate changes the value it
currently reports. -/
def JobManager.SetJobEnabled (jm : JobManager) (name : String) (b : Bool) :
    JobManager :=
  updateJobRecord jm name
    (fun r => { r with job := { r.job with enabledProvider := some b } })

/-- Modelled from the spec (§4.3 steps 1–3): tracker admission, as one atomic
test-and-set.  A serial-class unit whose name already has an active record is
rejected silently (no record, not queued, not an error); otherwise a fresh
execution record is created and the tracer's `Start` fires with the unit's
identity. -/
def JobManager.admitExecution (jm : JobManager) (name : String) (serial : Bool)
    (action : ActionSpec) (hasCancel fromJob : Bool) (now : Nat) : JobManager :=
  if serial && jm.inFlight name then jm
  else { jm with
    executions := jm.executions ++
      [⟨name, serial, action, hasCancel, fromJob, now, false, 0⟩],
    traceEvents := jm.traceEvents ++
      (if jm.hasTracer then [.start name] else []) }

/-- Modelled from the spec (§4.2): `RunTask` submits an ad-hoc task through
the tracker and returns once the execution has been accepted (or silently
rejected by the serial policy); the returned error reflects acceptance only,
never the execution's outcome. -/
def JobManager.RunTask (jm : JobManager) (t : Task) (now : Nat) :
    JobManager × Option CronError :=
  (jm.admitExecution t.name t.serial t.action t.hasOnCancellation false now, none)

/-- Modelled from the spec (§4.2, §5): `RunJob` triggers one execution of a
registered job immediately, subject to the same enabled-state check and the
serial-by-name concurrency convention for jobs; `NotFoundError` when
unregistered, a no-op when disabled. -/
def JobManager.RunJob (jm : JobManager) (name : String) (now : Nat) :
    Except CronError JobManager :=
  match lookupJob jm name with
  | none => .error (.notFound name)
  | some r =>
    if r.isDisabledRecord then .ok jm
    else .ok (jm.admitExecution name true r.job.action r.job.hasOnCancellation true now)

/-- Modelled from the spec (§4.3 step 4): firing the cancellation signal on a
record — the context's Done channel closes, and the declared cancellation
callback is invoked exactly once (a signal that has already fired does not
re-invoke it). -/
def cancelExecution (e : Execution) : Execution :=
  { e with
    ctxCancelled := true,
    cancelCallbackCount :=
      if !e.ctxCancelled && e.hasOnCancellation
      then e.cancelCallbackCount + 1 else e.cancelCallbackCount }

/-- Fire the cancellation signal on the first record under `name`. -/
def cancelFirst : List Execution → String → List Execution
  | [], _ => []
  | e :: rest, name =>
    if e.name == name then cancelExecution e :: rest
    else e :: cancelFirst rest name

/-- Modelled from the spec (§4.2): `CancelTask` signals cancellation to the
execution record matching the name when one is in flight, and fails with
`NotFoundError` when none is running. -/
def JobManager.CancelTask (jm : JobManager) (name : String) :
    Except CronError JobManager :=
  if jm.inFlight name then
    .ok { jm with executions := cancelFirst jm.executions name }
  else .error (.notFound name)

/-- Modelled from the spec (§4.3 steps 4–5): the oldest in-flight execution's
action returns (having observed the cancellation signal if it fired) and the
worker boundary completes it — the outcome is converted to an error result
(panics caught and synthesized into errors), the tracer's `Finish` fires once
with the outcome, a failed execution fires one structured error event on the
logger, the record is released, and for a job the registry's last-run and
next-run times are updated via the Schedule.  A manager with no in-flight
execution is unchanged. -/
def JobManager.finishNext (jm : JobManager) (now : Nat) : JobManager :=
  match jm.executions with
  | [] => jm
  | e :: rest =>
    let resErr := (e.action.result e.ctxCancelled).toError
    { jm with
      executions := rest,
      jobs := if e.fromJob then
          jm.jobs.map (fun r =>
            if r.job.name == e.name then
              { r with lastRun := some now,
                       nextRun := r.job.schedule.GetNextRunTime (some now) now }
            else r)
        else jm.jobs,
      completed := jm.completed ++ [(e.name, resErr)],
      traceEvents := jm.traceEvents ++
        (if jm.hasTracer then [.finish e.name resErr] else []),
      loggerEvents := jm.loggerEvents ++
        (match resErr with
          | some m => if jm.hasLogger then [⟨e.name, m⟩] else []
          | none => []) }

/-- Complete the `k` oldest in-flight executions, oldest first. -/
def finishMany : Nat → JobManager → Nat → JobManager
  | 0, jm, _ => jm
  | Nat.succ k, jm, now => finishMany k (jm.finishNext now) now

/-- Let every in-flight execution run to completion. -/
def JobManager.finishAll (jm : JobManager) (now : Nat) : JobManager :=
  finishMany jm.executions.length jm now

/-- Operation `Start` from the test file: the Heartbeat Loop transitions to Running. -/
def JobManager.Start (jm : JobManager) : JobManager :=
  { jm with status := .Running }

/-- Modelled from the spec (§4.2, §4.4): `Stop` halts the Heartbeat Loop —
the state machine transitions to Stopped and nothing else changes; in
particular already-running executions are not cancelled. -/
def JobManager.Stop (jm : JobManager) : JobManager :=
  { jm with status := .Stopped }

/-- Modelled from the spec (§4.4): one job's share of a heartbeat tick — if
the job is registered, not disabled, and its stored next-run time is at or
before now, submit it to the tracker exactly as `RunJob` would, then update
the stored last-run and next-run times unconditionally after submission. -/
def tickOne (s : JobManager) (name : String) (now : Nat) : JobManager :=
  match lookupJob s name with
  | none => s
  | some r =>
    if r.isDisabledRecord then s
    else match r.nextRun with
      | none => s
      | some due =>
        if due ≤ now then
          updateJobRecord
            (s.admitExecution name true r.job.action r.job.hasOnCancellation true now)
            name
            (fun rr => { rr with
              lastRun := some now,
              nextRun := rr.job.schedule.GetNextRunTime (some now) now })
        else s

/-- Modelled from the spec (§4.4): a heartbeat tick scans every registered
job in order; no tick is processed while the loop is Stopped. -/
def JobManager.tick (jm : JobManager) (now : Nat) : JobManager :=
  match jm.status with
  | .Stopped => jm
  | .Running =>
    (jm.jobs.map (fun r => r.job.name)).foldl (fun s n => tickOne s n now) jm

/-- Unwrap an administrative result that is known to be `ok` (scenario
helper; falls back to a fresh manager on error). -/
def getOk (x : Except CronError JobManager) : JobManager :=
  match x with
  | .ok s => s
  | .error _ => New

/-! ### Concrete scenario states, mirroring the test file's scenarios -/

/-- The serial task of `TestSerialTask`. -/
def serialTestTask : Task := NewSerialTaskWithName "test" (.always .ok)

/-- The parallel task of `TestSerialTask`. -/
def parallelTestTask : Task := NewTaskWithName "test1" (.always .ok)

/-- A manager with one in-flight execution of the serial task. -/
def busyManager : JobManager := (New.RunTask serialTestTask 0).1

/-- The panicking task of `TestJobManagerTaskPanicHandling`. -/
def panicTask : Task := NewTask (.always (.panicked "this is only a test"))

/-- A manager with the panicking task's execution in flight. -/
def panicManager : JobManager := (New.RunTask panicTask 0).1

/-- The execution record the tracker holds for `panicTask`. -/
def panicExec : Execution :=
  ⟨"task", false, .always (.panicked "this is only a test"), false, false, 0, false, 0⟩

/-- The cancellable task of `TestRunTaskAndCancel`: its action observes the
cancellation signal and returns early with a nil error, or times out with an
error if the signal never fires; it declares a cancellation callback. -/
def cancelTestTask : Task :=
  ⟨"taskToCancel", false, .cooperative .ok (.errored "timed out"), none, true⟩

/-- A manager with `cancelTestTask`'s execution in flight. -/
def cancelManager : JobManager := (New.RunTask cancelTestTask 0).1

/-- The execution record the tracker holds for `cancelTestTask`. -/
def cancelExec : Execution :=
  ⟨"taskToCancel", false, .cooperative .ok (.errored "timed out"), true, false, 0, false, 0⟩

/-- The job of `TestEnabledProvider`: on-demand, with an enabled predicate
currently reporting true. -/
def enabledTestJob : Job := ⟨"testWithEnabled", .OnDemand, .always .ok, none, false, some true⟩

/-- The manager of `TestEnabledProvider` after loading the job. -/
def enabledManager : JobManager := getOk (New.LoadJob enabledTestJob 0)

/-- The job of `TestFiresErrorOnTaskError`: `NewJob("error_test")` whose
action returns the error "this is only a test". -/
def errorTestJob : Job := NewJob "error_test" (.always (.errored "this is only a test"))

/-- The manager of `TestFiresErrorOnTaskError`: logger attached, job
loaded. -/
def errorManager : JobManager := getOk ((New.WithLogger).LoadJob errorTestJob 0)

/-- State `errorManager` after `RunJob "error_test"` was admitted. -/
def errorManagerRunning : JobManager := getOk (errorManager.RunJob "error_test" 0)

/-- The execution record of the erroring job. -/
def errorExec : Execution :=
  ⟨"error_test", true, .always (.errored "this is only a test"), false, true, 0, false, 0⟩

/-- A logger-attached manager with the panicking task's execution in
flight. -/
def panicLoggerManager : JobManager := ((New.WithLogger).RunTask panicTask 0).1

/-- The task of `TestManagerTracer`. -/
def tracerTestTask : Task := ⟨"test_task", false, .always .ok, none, false⟩

/-- The manager of `TestManagerTracer`: fresh, tracer attached. -/
def tracerManager : JobManager := New.WithTracer

/-- The job of `TestRunJobBySchedule` under the spec's built-in `At`
schedule: fires once at one heartbeat interval (5) after the start time 0. -/
def runAtSpecJob : Job := ⟨"runAt", .At 5, .always .ok, none, false, none⟩

/-- The job of `TestRunJobBySchedule` under the test file's `runAt` helper
schedule, whose `GetNextRunTime` always returns the fixed timestamp 5. -/
def runAtTestJob : Job := ⟨"runAt", .runAt 5, .always .ok, none, false, none⟩

/-- High-precision manager with the `At`-scheduled job loaded at time 0 and
the heartbeat started. -/
def runAtManagerAt : JobManager :=
  (getOk (New.WithHighPrecisionHeartbeat.LoadJob runAtSpecJob 0)).Start

/-- High-precision manager with the fixed-timestamp-scheduled job loaded at
time 0 and the heartbeat started. -/
def runAtManagerFixed : JobManager :=
  (getOk (New.WithHighPrecisionHeartbeat.LoadJob runAtTestJob 0)).Start

/-- State `runAtManagerAt` after the tick at time 5 fired the job and the
execution ran to completion. -/
def runAtAfterFire : JobManager := (runAtManagerAt.tick 5).finishNext 5

/-! ### Helper lemmas -/

theorem filter_length_zero_of_any_false {α : Type} (p : α → Bool) :
    ∀ l : List α, l.any p = false → (l.filter p).length = 0 := by
  intro l h
  induction l with
  | nil => rfl
  | cons a l ih =>
    simp only [List.any_cons, Bool.or_eq_false_iff] at h
    simp [List.filter_cons, h.1, ih h.2]

theorem execCount_zero_of_not_inFlight (jm : JobManager) (n : String)
    (h : jm.inFlight n = false) : execCount jm n = 0 :=
  filter_length_zero_of_any_false _ jm.executions h

theorem admitExecution_rejected (jm : JobManager) (name : String) (serial : Bool)
    (action : ActionSpec) (hc fj : Bool) (now : Nat)
    (h : (serial && jm.inFlight name) = true) :
    jm.admitExecution name serial action hc fj now = jm := by
  simp [JobManager.admitExecution, h]

theorem admitExecution_accepted (jm : JobManager) (name : String) (serial : Bool)
    (action : ActionSpec) (hc fj : Bool) (now : Nat)
    (h : (serial && jm.inFlight name) = false) :
    jm.admitExecution name serial action hc fj now = { jm with
      executions := jm.executions ++ [⟨name, serial, action, hc, fj, now, false, 0⟩],
      traceEvents := jm.traceEvents ++ (if jm.hasTracer then [.start name] else []) } := by
  simp [JobManager.admitExecution, h]

theorem inFlight_append_self (jm : JobManager) (name : String) (serial : Bool)
    (action : ActionSpec) (hc fj : Bool) (now : Nat) :
    JobManager.inFlight { jm with
      executions := jm.executions ++ [⟨name, serial, action, hc, fj, now, false, 0⟩],
      traceEvents := jm.traceEvents ++ (if jm.hasTracer then [.start name] else []) }
      name = true := by
  simp [JobManager.inFlight, List.any_append]

theorem execCount_append_exec (jm : JobManager) (e : Execution)
    (tr : List TraceEvent) (n : String) :
    execCount { jm with executions := jm.executions ++ [e], traceEvents := tr } n
      = execCount jm n + (if e.name == n then 1 else 0) := by
  simp only [execCount, List.filter_append]
  by_cases h : (e.name == n) = true
  · simp [h]
  · simp [h]

theorem find?_map_update (l : List JobRecord) (name : String)
    (f : JobRecord → JobRecord) (hf : ∀ r, (f r).job.name = r.job.name) :
    (l.map (fun r => if r.job.name == name then f r else r)).find?
        (fun r => r.job.name == name)
      = (l.find? (fun r => r.job.name == name)).map f := by
  induction l with
  | nil => rfl
  | cons r l ih =>
    simp only [List.map_cons]
    by_cases h : r.job.name = name
    · have hb : (r.job.name == name) = true := by simp [h]
      have hfb : ((f r).job.name == name) = true := by rw [hf r]; exact hb
      rw [if_pos hb]
      simp only [List.find?_cons, hfb, hb]
      rfl
    · have hb : (r.job.name == name) = false := by simp [h]
      rw [if_neg (by simp [hb])]
      simp only [List.find?_cons, hb]
      exact ih

theorem lookupJob_updateJobRecord (jm : JobManager) (name : String)
    (f : JobRecord → JobRecord) (hf : ∀ r, (f r).job.name = r.job.name) :
    lookupJob (updateJobRecord jm name f) name = (lookupJob jm name).map f :=
  find?_map_update jm.jobs name f hf

theorem finishNext_cons (jm : JobManager) (e : Execution)
    (rest : List Execution) (now : Nat) (hx : jm.executions = e :: rest) :
    jm.finishNext now = { jm with
      executions := rest,
      jobs := if e.fromJob then
          jm.jobs.map (fun r =>
            if r.job.name == e.name then
              { r with lastRun := some now,
                       nextRun := r.job.schedule.GetNextRunTime (some now) now }
            else r)
        else jm.jobs,
      completed := jm.completed ++ [(e.name, (e.action.result e.ctxCancelled).toError)],
      traceEvents := jm.traceEvents ++
        (if jm.hasTracer then [.finish e.name ((e.action.result e.ctxCancelled).toError)] else []),
      loggerEvents := jm.loggerEvents ++
        (match (e.action.result e.ctxCancelled).toError with
          | some m => if jm.hasLogger then [⟨e.name, m⟩] else []
          | none => []) } := by
  simp [JobManager.finishNext, hx]

theorem finishMany_completedCount :
    ∀ (k : Nat) (jm : JobManager) (now : Nat) (n : String),
      jm.executions.length = k →
      completedCount (finishMany k jm now) n = completedCount jm n + execCount jm n := by
  intro k
  induction k with
  | zero =>
    intro jm now n h
    have hnil : jm.executions = [] := List.length_eq_zero.mp h
    simp [finishMany, completedCount, execCount, hnil]
  | succ k ih =>
    intro jm now n h
    match hx : jm.executions with
    | [] => rw [hx] at h; simp at h
    | e :: rest =>
      rw [hx] at h
      simp only [List.length_cons, Nat.succ.injEq] at h
      have hfin := finishNext_cons jm e rest now hx
      have hlen : (jm.finishNext now).executions.length = k := by
        rw [hfin]; exact h
      have hih := ih (jm.finishNext now) now n hlen
      simp only [finishMany] at *
      rw [hih, hfin]
      simp only [completedCount, execCount, List.filter_append, List.length_append, hx,
        List.filter_cons]
      by_cases hn : (e.name == n) = true
      · simp [hn]
        omega
      · simp only [Bool.not_eq_true] at hn
        simp [hn]

/-! ### Claim theorems -/

/-- Claim C9: `RunTask` returns a nil error whenever the submitted task is
admitted, regardless of what the action later does — in particular also for a
task whose action subsequently panics — because its return value reflects
acceptance of the execution only, never the execution's outcome (the outcome
only arises at the separate completion step). -/
theorem run_task_returns_nil_on_admission (jm : JobManager) (t : Task)
    (now : Nat) (m : String) :
    (jm.RunTask t now).2 = none
    ∧ (jm.RunTask { t with action := ActionSpec.always (.panicked m) } now).2 = none :=
  ⟨rfl, rfl⟩

/-- Claim C8: `Stop` halts the Heartbeat Loop — the state machine moves to
Stopped and no tick is processed on a stopped manager — and leaves every
already-running execution unchanged (no record is cancelled or removed);
outstanding executions continue to completion exactly as they would have,
since completion commutes with `Stop`. -/
theorem stop_halts_ticks_preserves_executions (jm : JobManager) (now : Nat) :
    jm.Stop.status = .Stopped
    ∧ jm.Stop.executions = jm.executions
    ∧ jm.Stop.tick now = jm.Stop
    ∧ jm.Stop.finishNext now = (jm.finishNext now).Stop := by
  refine ⟨rfl, rfl, rfl, ?_⟩
  cases hx : jm.executions with
  | nil => simp [JobManager.finishNext, JobManager.Stop, hx]
  | cons e rest => simp [JobManager.finishNext, JobManager.Stop, hx]

/-- Claim C3: For a registered job, `IsDisabled` is the OR of the manual
disabled flag and (when the job declares an enabled predicate) the negation
of the predicate's current value; `DisableJob` sets the manual flag so
`IsDisabled` immediately yields true, and `EnableJob` clears only the manual
flag, so `IsDisabled` still reports exactly the predicate's negation. -/
theorem disabled_is_or_of_flag_and_provider (jm : JobManager) (name : String)
    (r : JobRecord) (hr : lookupJob jm name = some r) :
    jm.IsDisabled name
      = (r.disabled || (match r.job.enabledProvider with | some b => !b | none => false))
    ∧ jm.DisableJob name
      = .ok (updateJobRecord jm name (fun rr => { rr with disabled := true }))
    ∧ (getOk (jm.DisableJob name)).IsDisabled name = true
    ∧ (getOk ((getOk (jm.DisableJob name)).EnableJob name)).IsDisabled name
      = (match r.job.enabledProvider with | some b => !b | none => false) := by
  have l1 := lookupJob_updateJobRecord jm name
    (fun rr => { rr with disabled := true }) (fun _ => rfl)
  rw [hr] at l1
  have hd : jm.DisableJob name
      = .ok (updateJobRecord jm name (fun rr => { rr with disabled := true })) := by
    simp [JobManager.DisableJob, hr]
  have l2 := lookupJob_updateJobRecord
    (updateJobRecord jm name (fun rr => { rr with disabled := true })) name
    (fun rr => { rr with disabled := false }) (fun _ => rfl)
  rw [l1] at l2
  refine ⟨?_, hd, ?_, ?_⟩
  · simp [JobManager.IsDisabled, hr, JobRecord.isDisabledRecord]
  · simp [hd, getOk, JobManager.IsDisabled, l1, JobRecord.isDisabledRecord]
  · simp [hd, getOk, JobManager.EnableJob, l1, JobManager.IsDisabled, l2,
      JobRecord.isDisabledRecord]

/-- Claim C3 witness: the `TestEnabledProvider` scenario — job registered with
predicate true: not disabled; after `DisableJob`: disabled; after `EnableJob`
with predicate still true the manual flag alone decided, and with the
predicate flipped to false the job stays disabled despite `EnableJob`. -/
theorem disabled_is_or_of_flag_and_provider_witness :
    lookupJob enabledManager "testWithEnabled"
      = some ⟨enabledTestJob, false, none, none⟩
    ∧ (enabledManager.IsDisabled "testWithEnabled"
        = ((false : Bool) || (match (some true : Option Bool) with
            | some b => !b | none => false))
      ∧ enabledManager.DisableJob "testWithEnabled"
        = .ok (updateJobRecord enabledManager "testWithEnabled"
            (fun rr => { rr with disabled := true }))
      ∧ (getOk (enabledManager.DisableJob "testWithEnabled")).IsDisabled
          "testWithEnabled" = true
      ∧ (getOk ((getOk (enabledManager.DisableJob "testWithEnabled")).EnableJob
          "testWithEnabled")).IsDisabled "testWithEnabled"
        = (match (some true : Option Bool) with | some b => !b | none => false)) :=
  ⟨by decide,
   disabled_is_or_of_flag_and_provider enabledManager "testWithEnabled"
     ⟨enabledTestJob, false, none, none⟩ (by decide)⟩

/-- Claim C4 counterexample: The claim asserts that a job whose schedule's
`GetNextRunTime` keeps returning the same fixed timestamp (the test file's
`runAt` helper) is never executed a second time.  It is: under the heartbeat
algorithm the stored next-run time is recomputed after submission, the fixed
schedule returns the same due timestamp again, and the next tick re-fires the
job — two completed executions after the ticks at times 5 and 10. -/
theorem fixed_timestamp_schedule_reruns :
    completedCount ((((runAtManagerFixed.tick 5).finishNext 5).tick 10).finishNext 10)
      "runAt" = 2
    ∧ (Schedule.runAt 5).GetNextRunTime (some 5) 10 = some 5 :=
  ⟨by decide, rfl⟩

/-- Claim C4 amended: A job under the built-in `At(timestamp)` schedule —
whose `GetNextRunTime` returns the fixed timestamp before the first run and
none once a last run exists — fires exactly once: loaded at time 0 with fire
time one heartbeat interval (5) later, the started manager executes it on the
tick at time 5 (within 2× the heartbeat interval) and never again — every
further tick and completion step leaves the manager fixed.  A schedule that
keeps returning the same fixed timestamp regardless of the last-run argument
(the test helper) re-fires instead. -/
theorem at_schedule_fires_exactly_once (now2 lastR now3 T : Nat) :
    (runAtManagerAt.tick 5).executions
      = [⟨"runAt", true, .always .ok, false, true, 5, false, 0⟩]
    ∧ 5 ≤ 2 * runAtManagerAt.HeartbeatInterval
    ∧ completedCount runAtAfterFire "runAt" = 1
    ∧ (Schedule.At T).GetNextRunTime (some lastR) now3 = none
    ∧ runAtAfterFire.tick now2 = runAtAfterFire
    ∧ runAtAfterFire.finishNext now2 = runAtAfterFire := by
  refine ⟨by decide, by decide, by decide, rfl, ?_, ?_⟩
  · rfl
  · rfl

/-- Claim C7: With a tracer attached, admitting a task fires the tracer's
`Start` exactly once with the task's identity, before any outcome exists, and
completing the execution fires `Finish` exactly once afterwards with the
outcome of the action — for two managers with no prior in-flight execution:
a generic one, and one whose task's action succeeds, where `Finish` receives
a nil error. -/
theorem tracer_start_then_finish_once (jm jm2 : JobManager) (t t2 : Task)
    (a b a2 b2 : Nat)
    (ht : jm.hasTracer = true) (hx : jm.executions = [])
    (ht2 : jm2.hasTracer = true) (hx2 : jm2.executions = [])
    (hok : t2.action = .always .ok) :
    ((jm.RunTask t a).1).traceEvents = jm.traceEvents ++ [.start t.name]
    ∧ (((jm.RunTask t a).1).finishNext b).traceEvents
        = jm.traceEvents ++ [.start t.name, .finish t.name ((t.action.result false).toError)]
    ∧ (((jm2.RunTask t2 a2).1).finishNext b2).traceEvents
        = jm2.traceEvents ++ [.start t2.name, .finish t2.name none] := by
  have hin : jm.inFlight t.name = false := by simp [JobManager.inFlight, hx]
  have hadm := admitExecution_accepted jm t.name t.serial t.action t.hasOnCancellation false a
    (by simp [hin])
  have hin2 : jm2.inFlight t2.name = false := by simp [JobManager.inFlight, hx2]
  have hadm2 := admitExecution_accepted jm2 t2.name t2.serial t2.action t2.hasOnCancellation false a2
    (by simp [hin2])
  refine ⟨?_, ?_, ?_⟩
  · simp [JobManager.RunTask, hadm, ht]
  · have hx1 : ((jm.RunTask t a).1).executions
        = (⟨t.name, t.serial, t.action, t.hasOnCancellation, false, a, false, 0⟩ :
            Execution) :: [] := by
      simp [JobManager.RunTask, hadm, hx]
    rw [finishNext_cons _ _ _ b hx1]
    simp [JobManager.RunTask, hadm, ht, List.append_assoc]
  · have hadm2b := admitExecution_accepted jm2 t2.name t2.serial (ActionSpec.always .ok)
      t2.hasOnCancellation false a2 (by simp [hin2])
    have hx1 : ((jm2.RunTask t2 a2).1).executions
        = (⟨t2.name, t2.serial, .always .ok, t2.hasOnCancellation, false, a2, false, 0⟩ :
            Execution) :: [] := by
      simp [JobManager.RunTask, hok, hadm2b, hx2]
    rw [finishNext_cons _ _ _ b2 hx1]
    simp [JobManager.RunTask, hok, hadm2b, ht2, List.append_assoc, ActionSpec.result,
      Outcome.toError]

/-- Claim C7 witness: the `TestManagerTracer` scenario — a fresh tracer-attached
manager running `"test_task"` produces exactly the trace `[Start "test_task",
Finish "test_task" nil]`. -/
theorem tracer_start_then_finish_once_witness :
    tracerManager.hasTracer = true
    ∧ tracerManager.executions = []
    ∧ tracerTestTask.action = .always .ok
    ∧ (((tracerManager.RunTask tracerTestTask 0).1).traceEvents
        = tracerManager.traceEvents ++ [.start tracerTestTask.name]
      ∧ (((tracerManager.RunTask tracerTestTask 0).1).finishNext 1).traceEvents
        = tracerManager.traceEvents ++ [.start tracerTestTask.name,
            .finish tracerTestTask.name ((tracerTestTask.action.result false).toError)]
      ∧ (((tracerManager.RunTask tracerTestTask 0).1).finishNext 1).traceEvents
        = tracerManager.traceEvents ++ [.start tracerTestTask.name,
            .finish tracerTestTask.name none]) :=
  ⟨rfl, rfl, rfl,
   tracer_start_then_finish_once tracerManager tracerManager tracerTestTask
     tracerTestTask 0 1 0 1 rfl rfl rfl rfl rfl⟩

/-- Claim C1: The serial-class exclusion invariant: while an execution under a
name is in flight, a second serial-class invocation of that name is rejected
as a silent no-op — the manager state is unchanged and no error is returned
(not queued, not retried); hence two quick successive `RunTask` calls on a
serial task with no prior in-flight execution create exactly one execution
record and, once everything runs, exactly one completed execution, while two
`RunTask` calls on a parallel-class task create two execution records and two
completed executions.  Admission and record creation are one atomic
test-and-set inside `admitExecution`. -/
theorem serial_task_single_inflight_execution
    (jm1 jm2 jm3 : JobManager) (t1 t2 t3 : Task) (a b c d e f g : Nat)
    (h1s : t1.serial = true) (h1 : jm1.inFlight t1.name = true)
    (h2s : t2.serial = true) (h2 : jm2.inFlight t2.name = false)
    (h3s : t3.serial = false) :
    jm1.RunTask t1 a = (jm1, none)
    ∧ execCount ((jm2.RunTask t2 b).1.RunTask t2 c).1 t2.name = 1
    ∧ completedCount ((((jm2.RunTask t2 b).1.RunTask t2 c).1).finishAll d) t2.name
        = completedCount jm2 t2.name + 1
    ∧ execCount ((jm3.RunTask t3 e).1.RunTask t3 f).1 t3.name
        = execCount jm3 t3.name + 2
    ∧ completedCount ((((jm3.RunTask t3 e).1.RunTask t3 f).1).finishAll g) t3.name
        = completedCount jm3 t3.name + execCount jm3 t3.name + 2 := by
  have hrej := admitExecution_rejected jm1 t1.name t1.serial t1.action t1.hasOnCancellation
    false a (by rw [h1s, h1]; rfl)
  have hacc := admitExecution_accepted jm2 t2.name t2.serial t2.action t2.hasOnCancellation
    false b (by simp [h2])
  have h2z : execCount jm2 t2.name = 0 := execCount_zero_of_not_inFlight jm2 t2.name h2
  -- after the first serial admission the name is in flight, so the second is a no-op
  have hfl1 : ((jm2.RunTask t2 b).1).inFlight t2.name = true := by
    show (jm2.admitExecution t2.name t2.serial t2.action t2.hasOnCancellation false b).inFlight
      t2.name = true
    rw [hacc]
    exact inFlight_append_self jm2 t2.name t2.serial t2.action t2.hasOnCancellation false b
  have hrej2 := admitExecution_rejected ((jm2.RunTask t2 b).1) t2.name t2.serial t2.action
    t2.hasOnCancellation false c (by rw [h2s, hfl1]; rfl)
  have hcnt1 : execCount ((jm2.RunTask t2 b).1.RunTask t2 c).1 t2.name = 1 := by
    show execCount ((jm2.RunTask t2 b).1.admitExecution t2.name t2.serial t2.action
      t2.hasOnCancellation false c) t2.name = 1
    rw [hrej2]
    show execCount (jm2.admitExecution t2.name t2.serial t2.action t2.hasOnCancellation false b)
      t2.name = 1
    rw [hacc, execCount_append_exec, h2z]
    simp
  -- the parallel-class task is always admitted
  have hacc3a := admitExecution_accepted jm3 t3.name t3.serial t3.action t3.hasOnCancellation
    false e (by rw [h3s]; rfl)
  have hacc3b := admitExecution_accepted ((jm3.RunTask t3 e).1) t3.name t3.serial t3.action
    t3.hasOnCancellation false f (by rw [h3s]; rfl)
  have hcnt3 : execCount ((jm3.RunTask t3 e).1.RunTask t3 f).1 t3.name
      = execCount jm3 t3.name + 2 := by
    show execCount ((jm3.RunTask t3 e).1.admitExecution t3.name t3.serial t3.action
      t3.hasOnCancellation false f) t3.name = execCount jm3 t3.name + 2
    rw [hacc3b, execCount_append_exec]
    show execCount (jm3.admitExecution t3.name t3.serial t3.action t3.hasOnCancellation false e)
        t3.name + _ = _
    rw [hacc3a, execCount_append_exec]
    simp
  refine ⟨?_, hcnt1, ?_, hcnt3, ?_⟩
  · show (jm1.admitExecution t1.name t1.serial t1.action t1.hasOnCancellation false a, none)
      = (jm1, none)
    rw [hrej]
  · have hfin := finishMany_completedCount
      (((jm2.RunTask t2 b).1.RunTask t2 c).1).executions.length
      (((jm2.RunTask t2 b).1.RunTask t2 c).1) d t2.name rfl
    rw [JobManager.finishAll, hfin, hcnt1]
    -- admissions leave the completed-execution history untouched
    have hcomp : completedCount ((jm2.RunTask t2 b).1.RunTask t2 c).1 t2.name
        = completedCount jm2 t2.name := by
      show completedCount ((jm2.RunTask t2 b).1.admitExecution t2.name t2.serial t2.action
        t2.hasOnCancellation false c) t2.name = _
      rw [hrej2]
      show completedCount (jm2.admitExecution t2.name t2.serial t2.action t2.hasOnCancellation
        false b) t2.name = _
      rw [hacc]
      rfl
    rw [hcomp]
  · have hfin := finishMany_completedCount
      (((jm3.RunTask t3 e).1.RunTask t3 f).1).executions.length
      (((jm3.RunTask t3 e).1.RunTask t3 f).1) g t3.name rfl
    rw [JobManager.finishAll, hfin, hcnt3]
    have hcomp : completedCount ((jm3.RunTask t3 e).1.RunTask t3 f).1 t3.name
        = completedCount jm3 t3.name := by
      show completedCount ((jm3.RunTask t3 e).1.admitExecution t3.name t3.serial t3.action
        t3.hasOnCancellation false f) t3.name = _
      rw [hacc3b]
      show completedCount (jm3.admitExecution t3.name t3.serial t3.action t3.hasOnCancellation
        false e) t3.name = _
      rw [hacc3a]
      rfl
    rw [hcomp]
    omega

/-- Claim C1 witness: the `TestSerialTask` scenario — a busy manager rejects the
second serial `"test"` invocation as a no-op; from a fresh manager two serial
runs of `"test"` give one execution and one completion, while two parallel
runs of `"test1"` give two of each. -/
theorem serial_task_single_inflight_execution_witness :
    serialTestTask.serial = true
    ∧ busyManager.inFlight serialTestTask.name = true
    ∧ New.inFlight serialTestTask.name = false
    ∧ parallelTestTask.serial = false
    ∧ (busyManager.RunTask serialTestTask 2 = (busyManager, none)
      ∧ execCount ((New.RunTask serialTestTask 0).1.RunTask serialTestTask 1).1
          serialTestTask.name = 1
      ∧ completedCount ((((New.RunTask serialTestTask 0).1.RunTask serialTestTask 1).1).finishAll 2)
          serialTestTask.name = completedCount New serialTestTask.name + 1
      ∧ execCount ((New.RunTask parallelTestTask 0).1.RunTask parallelTestTask 1).1
          parallelTestTask.name = execCount New parallelTestTask.name + 2
      ∧ completedCount ((((New.RunTask parallelTestTask 0).1.RunTask parallelTestTask 1).1).finishAll 2)
          parallelTestTask.name
        = completedCount New parallelTestTask.name + execCount New parallelTestTask.name + 2) :=
  ⟨rfl, by decide, by decide, rfl,
   serial_task_single_inflight_execution busyManager New New serialTestTask
     serialTestTask parallelTestTask 2 0 1 2 0 1 2 rfl (by decide) rfl (by decide) rfl⟩

/-- Claim C2: A panic inside an action is caught at the worker boundary and
converted into an error result: completing the panicking execution releases
its record and appends a completed execution whose result is the synthesized
error — the completion step is a total function into manager states, so
nothing propagates to the tracker or the caller's thread of control — and the
manager remains usable afterwards: a subsequent `RunTask` is accepted with a
nil error and creates a fresh execution record. -/
theorem panic_caught_at_worker_boundary (jm : JobManager) (ex : Execution)
    (rest : List Execution) (m : String) (t : Task) (a b : Nat)
    (hx : jm.executions = ex :: rest)
    (hp : ex.action.result ex.ctxCancelled = .panicked m)
    (hts : t.serial = false) :
    (jm.finishNext a).executions = rest
    ∧ (jm.finishNext a).completed = jm.completed ++ [(ex.name, some m)]
    ∧ ((jm.finishNext a).RunTask t b).2 = none
    ∧ execCount ((jm.finishNext a).RunTask t b).1 t.name
        = execCount (jm.finishNext a) t.name + 1 := by
  have hfin := finishNext_cons jm ex rest a hx
  have hacc := admitExecution_accepted (jm.finishNext a) t.name t.serial t.action
    t.hasOnCancellation false b (by rw [hts]; rfl)
  refine ⟨by rw [hfin], by rw [hfin]; simp [hp, Outcome.toError], rfl, ?_⟩
  show execCount ((jm.finishNext a).admitExecution t.name t.serial t.action
    t.hasOnCancellation false b) t.name = _
  rw [hacc, execCount_append_exec]
  simp

/-- Claim C2 witness: the `TestJobManagerTaskPanicHandling` scenario — the
panicking task's execution completes into the error result
`"this is only a test"`, the record is released, and the manager accepts a
further task. -/
theorem panic_caught_at_worker_boundary_witness :
    panicManager.executions = panicExec :: []
    ∧ panicExec.action.result panicExec.ctxCancelled
        = .panicked "this is only a test"
    ∧ parallelTestTask.serial = false
    ∧ ((panicManager.finishNext 1).executions = []
      ∧ (panicManager.finishNext 1).completed
        = panicManager.completed ++ [(panicExec.name, some "this is only a test")]
      ∧ ((panicManager.finishNext 1).RunTask parallelTestTask 2).2 = none
      ∧ execCount ((panicManager.finishNext 1).RunTask parallelTestTask 2).1
          parallelTestTask.name
        = execCount (panicManager.finishNext 1) parallelTestTask.name + 1) :=
  ⟨by decide, rfl, rfl,
   panic_caught_at_worker_boundary panicManager panicExec [] "this is only a test"
     parallelTestTask 1 2 (by decide) rfl rfl⟩

/-- Claim C5: `CancelTask` on a name with no running execution does not panic
(it is a total function) and reports not-found; on an in-flight execution it
returns ok and fires the cancellation signal on the matching record, whose
declared cancellation callback fires exactly once — a second cancellation of
the already-cancelled record does not re-fire it — and the record is released
as soon as the (cooperatively returning) action completes. -/
theorem cancel_task_callback_and_release (jm1 : JobManager) (n1 : String)
    (jm2 : JobManager) (ex : Execution) (rest : List Execution) (now : Nat)
    (h1 : jm1.inFlight n1 = false)
    (h2 : jm2.executions = ex :: rest)
    (hc : ex.ctxCancelled = false) (hcb : ex.cancelCallbackCount = 0)
    (hh : ex.hasOnCancellation = true) :
    jm1.CancelTask n1 = .error (.notFound n1)
    ∧ jm2.CancelTask ex.name = .ok { jm2 with executions := cancelExecution ex :: rest }
    ∧ (cancelExecution ex).ctxCancelled = true
    ∧ (cancelExecution ex).cancelCallbackCount = 1
    ∧ (cancelExecution (cancelExecution ex)).cancelCallbackCount = 1
    ∧ ({ jm2 with executions := cancelExecution ex :: rest } : JobManager).CancelTask
        ex.name
      = .ok { jm2 with executions := cancelExecution (cancelExecution ex) :: rest }
    ∧ (({ jm2 with executions := cancelExecution ex :: rest } : JobManager).finishNext
        now).executions = rest := by
  have hflight : jm2.inFlight ex.name = true := by
    simp [JobManager.inFlight, h2]
  refine ⟨?_, ?_, rfl, ?_, ?_, ?_, ?_⟩
  · simp [JobManager.CancelTask, h1]
  · simp [JobManager.CancelTask, hflight, h2, cancelFirst]
  · simp [cancelExecution, hc, hcb, hh]
  · simp [cancelExecution, hc, hcb, hh]
  · simp [JobManager.CancelTask, JobManager.inFlight, cancelFirst, cancelExecution]
  · rw [finishNext_cons _ (cancelExecution ex) rest now rfl]

/-- Claim C5 witness: the `TestRunTaskAndCancel` scenario — cancelling
`"taskToCancel"` while it runs returns ok, fires its callback once (also
under a repeated cancellation), and the record is released at completion;
cancelling on a fresh manager reports not-found. -/
theorem cancel_task_callback_and_release_witness :
    New.inFlight "taskToCancel" = false
    ∧ cancelManager.executions = cancelExec :: []
    ∧ cancelExec.ctxCancelled = false
    ∧ cancelExec.cancelCallbackCount = 0
    ∧ cancelExec.hasOnCancellation = true
    ∧ (New.CancelTask "taskToCancel" = .error (.notFound "taskToCancel")
      ∧ cancelManager.CancelTask cancelExec.name
        = .ok { cancelManager with executions := cancelExecution cancelExec :: [] }
      ∧ (cancelExecution cancelExec).ctxCancelled = true
      ∧ (cancelExecution cancelExec).cancelCallbackCount = 1
      ∧ (cancelExecution (cancelExecution cancelExec)).cancelCallbackCount = 1
      ∧ ({ cancelManager with executions := cancelExecution cancelExec :: [] }
          : JobManager).CancelTask cancelExec.name
        = .ok { cancelManager with
            executions := cancelExecution (cancelExecution cancelExec) :: [] }
      ∧ (({ cancelManager with executions := cancelExecution cancelExec :: [] }
          : JobManager).finishNext 1).executions = []) :=
  ⟨by decide, by decide, rfl, rfl, rfl,
   cancel_task_callback_and_release New "taskToCancel" cancelManager cancelExec []
     1 (by decide) (by decide) rfl rfl rfl⟩

/-- Claim C10: `CancelTask` on a name whose execution is in flight returns a
nil error (the `.ok` branch), and the cancellation is delivered to the action
through its context: the record's Done signal is set, so a cooperating action
observes it and completes with its early-return outcome. -/
theorem cancel_signals_context_of_running_execution (jm : JobManager)
    (ex : Execution) (rest : List Execution) (oc onorm : Outcome) (now : Nat)
    (hx : jm.executions = ex :: rest)
    (ha : ex.action = .cooperative oc onorm) :
    jm.CancelTask ex.name = .ok { jm with executions := cancelExecution ex :: rest }
    ∧ (cancelExecution ex).ctxCancelled = true
    ∧ (({ jm with executions := cancelExecution ex :: rest } : JobManager).finishNext
          now).completed
        = jm.completed ++ [(ex.name, oc.toError)] := by
  have hflight : jm.inFlight ex.name = true := by
    simp [JobManager.inFlight, hx]
  refine ⟨?_, rfl, ?_⟩
  · simp [JobManager.CancelTask, hflight, hx, cancelFirst]
  · rw [finishNext_cons _ (cancelExecution ex) rest now rfl]
    simp [cancelExecution, ha, ActionSpec.result]

/-- Claim C10 witness: the `TestRunTaskAndCancel` scenario — cancelling the
running `"taskToCancel"` returns ok, closes the context's Done signal, and
the cooperating action (select on `ctx.Done()`) completes with a nil
error. -/
theorem cancel_signals_context_of_running_execution_witness :
    cancelManager.executions = cancelExec :: []
    ∧ cancelExec.action = .cooperative .ok (.errored "timed out")
    ∧ (cancelManager.CancelTask cancelExec.name
        = .ok { cancelManager with executions := cancelExecution cancelExec :: [] }
      ∧ (cancelExecution cancelExec).ctxCancelled = true
      ∧ (({ cancelManager with executions := cancelExecution cancelExec :: [] }
            : JobManager).finishNext 1).completed
        = cancelManager.completed ++ [(cancelExec.name, Outcome.ok.toError)]) :=
  ⟨by decide, rfl,
   cancel_signals_context_of_running_execution cancelManager cancelExec []
     .ok (.errored "timed out") 1 (by decide) rfl⟩

/-- Claim C6: An execution whose action returns an error — or whose caught
panic is synthesized into one — delivers exactly one structured error event
to the attached logger, carrying the failing name and the error; the caller
that triggered the run receives only the admission result (`RunJob` returns
ok before the action ever fails), never the execution's error, and the
heartbeat-triggered path is fire-and-forget by construction (`tick` and
`finishNext` return only manager states). -/
theorem failed_execution_fires_one_logger_error (jm : JobManager) (ex : Execution)
    (rest : List Execution) (m : String) (jm2 : JobManager) (ex2 : Execution)
    (rest2 : List Execution) (m2 : String) (now now2 : Nat)
    (hl : jm.hasLogger = true) (hx : jm.executions = ex :: rest)
    (he : ex.action.result ex.ctxCancelled = .errored m)
    (hl2 : jm2.hasLogger = true) (hx2 : jm2.executions = ex2 :: rest2)
    (he2 : ex2.action.result ex2.ctxCancelled = .panicked m2) :
    (jm.finishNext now).loggerEvents = jm.loggerEvents ++ [⟨ex.name, m⟩]
    ∧ (jm2.finishNext now2).loggerEvents = jm2.loggerEvents ++ [⟨ex2.name, m2⟩]
    ∧ errorManager.RunJob "error_test" 0 = .ok errorManagerRunning
    ∧ (errorManagerRunning.finishNext 0).loggerEvents
        = [⟨"error_test", "this is only a test"⟩] := by
  refine ⟨?_, ?_, rfl, by decide⟩
  · rw [finishNext_cons jm ex rest now hx]
    simp [he, Outcome.toError, hl]
  · rw [finishNext_cons jm2 ex2 rest2 now2 hx2]
    simp [he2, Outcome.toError, hl2]

/-- Claim C6 witness: the `TestFiresErrorOnTaskError` scenario — the
`"error_test"` job's failing execution fires exactly the error event
`("error_test", "this is only a test")` on the logger, while `RunJob`
returned ok to its caller. -/
theorem failed_execution_fires_one_logger_error_witness :
    errorManagerRunning.hasLogger = true
    ∧ errorManagerRunning.executions = errorExec :: []
    ∧ errorExec.action.result errorExec.ctxCancelled = .errored "this is only a test"
    ∧ panicLoggerManager.hasLogger = true
    ∧ panicLoggerManager.executions = panicExec :: []
    ∧ panicExec.action.result panicExec.ctxCancelled = .panicked "this is only a test"
    ∧ ((errorManagerRunning.finishNext 0).loggerEvents
        = errorManagerRunning.loggerEvents ++ [⟨errorExec.name, "this is only a test"⟩]
      ∧ (panicLoggerManager.finishNext 1).loggerEvents
        = panicLoggerManager.loggerEvents ++ [⟨panicExec.name, "this is only a test"⟩]
      ∧ errorManager.RunJob "error_test" 0 = .ok errorManagerRunning
      ∧ (errorManagerRunning.finishNext 0).loggerEvents
        = [⟨"error_test", "this is only a test"⟩]) :=
  ⟨rfl, by decide, rfl, rfl, by decide, rfl,
   failed_execution_fires_one_logger_error errorManagerRunning errorExec []
     "this is only a test" panicLoggerManager panicExec [] "this is only a test"
     0 1 rfl (by decide) rfl rfl (by decide) rfl⟩

end Cron
